import Mathlib

/- Verification of the Meander viewport-driven spatial clustering and
selection engine.  The definitions below are shallow embeddings of the
JavaScript source under src/ (the mapbox variant in src/unnamed/part_001,
together with the NewTreeForm component in src/unnamed/part_000 and the
sibling variants part_002 and part_004).  Remote HTTP calls are modelled by
an explicit result value: a thrown fetch/network error or a non-2xx
response, both re-thrown by sendAddLocation and sendRemoveLocation, appear
as the error case. -/

namespace Meander

/-- Properties attached to a tree point feature, exactly the fields built by
treeToFeature in src/unnamed/part_001 lines 56-70.  Note that no active
flag exists anywhere in the source data model. -/
structure TreeProperties where
  location_id : String
  tree_id : String
  latin_name : String
  source : String
  common_name : String
  is_native : Bool
deriving DecidableEq

/-- A GeoJSON point feature; geometry holds (longitude, latitude). -/
structure Feature where
  geometry : Int × Int
  properties : TreeProperties
deriving DecidableEq

/-- The GeoJSON feature collection held in the treeLocations React state:
a type tag plus the feature list (src/unnamed/part_001 lines 79-82). -/
structure FeatureCollection where
  type : String
  features : List Feature
deriving DecidableEq

/-- A tree record as returned by the backend create endpoint and fed to
treeToFeature (src/unnamed/part_001 lines 119-146). -/
structure Tree where
  location_id : String
  tree_id : String
  latin_name : String
  common_name : String
  latitude : Int
  longitude : Int
  source : String
  is_native : Bool
deriving DecidableEq

/-- treeToFeature (src/unnamed/part_001 lines 56-70). -/
def treeToFeature (tree : Tree) : Feature :=
  { geometry := (tree.longitude, tree.latitude)
  , properties :=
    { location_id := tree.location_id
    , tree_id := tree.tree_id
    , latin_name := tree.latin_name
    , source := tree.source
    , common_name := tree.common_name
    , is_native := tree.is_native } }

/-- Result of an awaited remote call.  Except.error models a thrown network
error or a non-2xx HTTP status (sendAddLocation and sendRemoveLocation turn
non-ok responses into thrown errors, src/unnamed/part_001 lines 99-146). -/
abbrev Remote (α : Type) := Except Unit α

/-- handleAddTreeSubmit (src/unnamed/part_001 lines 203-223): the remote
create is awaited first; only on success is the returned canonical feature
appended to the store; a thrown error is caught and the store is left
untouched (the catch block only logs). -/
def handleAddTreeSubmit (treeLocations : FeatureCollection) (remote : Remote Tree) : FeatureCollection :=
  match remote with
  | Except.error _ => treeLocations
  | Except.ok addedTree =>
      { treeLocations with features := treeLocations.features ++ [treeToFeature addedTree] }

/-- removeTree (src/unnamed/part_001 lines 437-452, same shape in
src/unnamed/part_004 lines 270-284): an empty confirmation name aborts
before any remote call; otherwise the remote soft-delete is awaited, and
only after it succeeds does the store drop every feature whose location_id
matches; a thrown remote error aborts before the local filter runs. -/
def removeTree (treeLocations : FeatureCollection) (locationId : String) (removedBy : String) (remote : Remote Unit) : FeatureCollection :=
  if removedBy = "" then treeLocations
  else
    match remote with
    | Except.error _ => treeLocations
    | Except.ok _ =>
        { treeLocations with features := treeLocations.features.filter (fun feature => !(feature.properties.location_id == locationId)) }

/-- handleTreeListClick (src/unnamed/part_001 lines 225-230, identical in
src/unnamed/part_002 lines 299-305): clicking the currently highlighted
name clears the highlight, otherwise the clicked name becomes highlighted. -/
def handleTreeListClick (treeName : String) (highlightedTree : Option String) : Option String :=
  if some treeName = highlightedTree then none else some treeName

/-- The NewTreeForm state (src/unnamed/part_000 lines 73-83). -/
structure FormState where
  common_name : String
  latitude : Int
  longitude : Int
  is_native : Bool
  tree_id : String
  family : String
  latin_name : String
  state_distribution : String
  source : String
deriving DecidableEq

/-- NewTreeForm.handleSubmit (src/unnamed/part_000 lines 106-115): an empty
common_name or empty source is rejected with an alert before onSubmit is
invoked; otherwise the form state is handed to onSubmit.  (JavaScript
falsiness on these string fields is emptiness.) -/
def handleSubmit (formState : FormState) : Option FormState :=
  if formState.common_name = "" ∨ formState.source = "" then none
  else some formState

/-- Composition of NewTreeForm.handleSubmit with handleAddTreeSubmit: the
Boolean records whether the remote create (sendAddLocation) was invoked,
which happens exactly when handleSubmit passes the form to onSubmit. -/
def newTreeSubmitFlow (formState : FormState) (treeLocations : FeatureCollection) (remote : Remote Tree) : FeatureCollection × Bool :=
  match handleSubmit formState with
  | none => (treeLocations, false)
  | some _ => (handleAddTreeSubmit treeLocations remote, true)

/-! Sample data used by concrete counterexamples and witnesses. -/

/-- A sample oak feature with location_id 1. -/
def oakFeature : Feature :=
  { geometry := (-71, 42)
  , properties :=
    { location_id := "1", tree_id := "t1", latin_name := "quercus alba"
    , source := "init", common_name := "Oak", is_native := true } }

/-- A sample maple feature with location_id 2. -/
def mapleFeature : Feature :=
  { geometry := (-72, 43)
  , properties :=
    { location_id := "2", tree_id := "t2", latin_name := "acer rubrum"
    , source := "init", common_name := "Maple", is_native := true } }

/-- A store containing only the oak feature. -/
def fcOak : FeatureCollection := { type := "FeatureCollection", features := [oakFeature] }

/-- A store containing the oak and maple features. -/
def fcBoth : FeatureCollection := { type := "FeatureCollection", features := [oakFeature, mapleFeature] }

/-! Claim theorems for the Edit Coordinator, Selection Controller and form
validation. -/

/-- Claim C1: a failed remote call (non-2xx or network error) on add or on
remove leaves the Feature Store exactly as it was: the failed add appends
no phantom feature and the failed remove drops nothing. -/
theorem claim_C1_remote_failure_leaves_store_unchanged :
    ∀ (treeLocations : FeatureCollection) (locationId removedBy : String),
      handleAddTreeSubmit treeLocations (Except.error ()) = treeLocations ∧
      removeTree treeLocations locationId removedBy (Except.error ()) = treeLocations := by
  intro treeLocations locationId removedBy
  refine ⟨rfl, ?_⟩
  unfold removeTree
  split <;> rfl

/-- Claim C2 counterexample: after a successful remove of location_id 1
from a store holding exactly that feature, the store does not contain the
removed feature at all (no feature with that location_id remains, with or
without any flag): the code hard-deletes locally via Array.filter. -/
theorem claim_C2_counterexample :
    (removeTree fcOak "1" "alice" (Except.ok ())).features = [] ∧
    ¬ ∃ f, f ∈ (removeTree fcOak "1" "alice" (Except.ok ())).features ∧
      f.properties.location_id = "1" := by
  refine ⟨by decide, ?_⟩
  decide

/-- Claim C2 amended: on every successful remove(location_id) with a
non-empty confirmation name, every feature with that location_id is removed
outright from the local store (the embedded data model has no active flag;
soft-delete retention is delegated to the backend), so the removed feature
is excluded from clustering and from all visibility computations, while
every feature with a different location_id is kept. -/
theorem claim_C2_successful_remove_hard_deletes :
    ∀ (treeLocations : FeatureCollection) (locationId removedBy : String),
      ¬ removedBy = "" →
      (∀ f, f ∈ (removeTree treeLocations locationId removedBy (Except.ok ())).features →
        ¬ f.properties.location_id = locationId) ∧
      (∀ f, f ∈ treeLocations.features → ¬ f.properties.location_id = locationId →
        f ∈ (removeTree treeLocations locationId removedBy (Except.ok ())).features) := by
  intro treeLocations locationId removedBy hname
  unfold removeTree
  rw [if_neg hname]
  constructor
  · intro f hf
    have hmem := List.of_mem_filter hf
    simpa using hmem
  · intro f hf hne
    refine List.mem_filter.mpr ⟨hf, ?_⟩
    simpa using hne

/-- Claim C2 witness: removing location_id 1 from the two-feature store
keeps the maple feature (different location_id) in the store. -/
theorem claim_C2_witness :
    mapleFeature ∈ (removeTree fcBoth "1" "alice" (Except.ok ())).features :=
  (claim_C2_successful_remove_hard_deletes fcBoth "1" "alice" (by decide)).2
    mapleFeature (by decide) (by decide)

/-- Claim C3 counterexample: starting from a selection already equal to
Oak, selecting Oak twice leaves the selection equal to Oak, not null (the
first toggle clears it, the second sets it again). -/
theorem claim_C3_counterexample :
    ¬ handleTreeListClick "Oak" (handleTreeListClick "Oak" (some "Oak")) = none := by
  decide

/-- Claim C3 amended: select(k) clears the selection when it already equals
k and sets it to k otherwise; hence select(k) twice leaves the selection
null whenever the starting selection differed from k, and leaves it equal
to k when the starting selection was already k. -/
theorem claim_C3_double_toggle :
    ∀ (k : String) (s : Option String),
      (¬ s = some k → handleTreeListClick k (handleTreeListClick k s) = none) ∧
      (s = some k → handleTreeListClick k (handleTreeListClick k s) = some k) := by
  intro k s
  unfold handleTreeListClick
  by_cases h : s = some k
  · subst h
    simp
  · simp [Ne.symm h, h]

/-- Claim C3 witness: from an empty selection, selecting Oak twice ends
with the selection cleared. -/
theorem claim_C3_witness :
    handleTreeListClick "Oak" (handleTreeListClick "Oak" none) = none :=
  (claim_C3_double_toggle "Oak" none).1 (by decide)

/-- Claim C4: the add workflow validates locally before any network call:
the remote create is invoked exactly when both the species common_name and
the actor/source identity are non-empty, and when validation rejects the
form the store is untouched. -/
theorem claim_C4_validation_before_network :
    ∀ (formState : FormState) (treeLocations : FeatureCollection) (remote : Remote Tree),
      ((newTreeSubmitFlow formState treeLocations remote).2 = true ↔
        (¬ formState.common_name = "" ∧ ¬ formState.source = "")) ∧
      ((newTreeSubmitFlow formState treeLocations remote).2 = false →
        (newTreeSubmitFlow formState treeLocations remote).1 = treeLocations) := by
  intro formState treeLocations remote
  unfold newTreeSubmitFlow handleSubmit
  by_cases h : formState.common_name = "" ∨ formState.source = ""
  · rw [if_pos h]
    constructor
    · constructor
      · intro hfalse
        exact absurd hfalse (by simp)
      · intro ⟨h1, h2⟩
        exact absurd h (by tauto)
    · intro _
      rfl
  · rw [if_neg h]
    push_neg at h
    constructor
    · simp [h]
    · intro hfalse
      exact absurd hfalse (by simp)

/-- A form whose required source field is empty. -/
def emptySourceForm : FormState :=
  { common_name := "Oak", latitude := 42, longitude := -71, is_native := true
  , tree_id := "t1", family := "fagaceae", latin_name := "quercus alba"
  , state_distribution := "", source := "" }

/-- Claim C4 witness: submitting a form with an empty source identity
leaves the store unchanged (the remote create was never invoked). -/
theorem claim_C4_witness :
    (newTreeSubmitFlow emptySourceForm fcOak (Except.error ())).1 = fcOak :=
  (claim_C4_validation_before_network emptySourceForm fcOak (Except.error ())).2 (by decide)

/-- Claim C10: a successful remove changes nothing but the matching
features: the collection type tag is unchanged, the surviving feature list
is a sublist of the original (order and multiplicity preserved, nothing
added), every feature whose location_id differs from the removed one is
still present unchanged, and every surviving feature came from the original
store. -/
theorem claim_C10_remove_frame_effect :
    ∀ (treeLocations : FeatureCollection) (locationId removedBy : String),
      ¬ removedBy = "" →
      (removeTree treeLocations locationId removedBy (Except.ok ())).type = treeLocations.type ∧
      List.Sublist (removeTree treeLocations locationId removedBy (Except.ok ())).features treeLocations.features ∧
      (∀ f, f ∈ treeLocations.features → ¬ f.properties.location_id = locationId →
        f ∈ (removeTree treeLocations locationId removedBy (Except.ok ())).features) ∧
      (∀ f, f ∈ (removeTree treeLocations locationId removedBy (Except.ok ())).features →
        f ∈ treeLocations.features) := by
  intro treeLocations locationId removedBy hname
  unfold removeTree
  rw [if_neg hname]
  refine ⟨rfl, List.filter_sublist _, ?_, ?_⟩
  · intro f hf hne
    refine List.mem_filter.mpr ⟨hf, ?_⟩
    simpa using hne
  · intro f hf
    exact List.mem_of_mem_filter hf

/-- Claim C10 witness: removing location_id 2 keeps the collection type and
the oak feature (location_id 1) byte-for-byte. -/
theorem claim_C10_witness :
    (removeTree fcBoth "2" "bob" (Except.ok ())).type = "FeatureCollection" ∧
    oakFeature ∈ (removeTree fcBoth "2" "bob" (Except.ok ())).features :=
  ⟨(claim_C10_remove_frame_effect fcBoth "2" "bob" (by decide)).1,
   (claim_C10_remove_frame_effect fcBoth "2" "bob" (by decide)).2.2.1
     oakFeature (by decide) (by decide)⟩

/-! Selection Controller and highlight filters. -/

/-- A visible cluster as seen through queryRenderedFeatures on the clusters
layer together with its getClusterLeaves expansion (src/unnamed/part_001
lines 157-168): the cluster id and its leaf features. -/
structure VisCluster where
  cluster_id : Nat
  leaves : List Feature
deriving DecidableEq

/-- The pair of highlight filters: the common_name matched by the
highlighted-point layer filter and the cluster ids listed by the
highlighted-cluster layer filter. -/
structure Filters where
  pointName : String
  clusterIds : List Nat
deriving DecidableEq

/-- The match-nothing filters installed at layer creation and restored on
effect cleanup (filters on the empty string, src/unnamed/part_001 lines
315, 340 and 588-589). -/
def emptyFilters : Filters := { pointName := "", clusterIds := [] }

/-- highlightTree (src/unnamed/part_001 lines 562-575): walk the visible
clusters in order, expand each to its leaves, collect the ids of those with
at least one leaf of the highlighted common_name, then install the point
filter and the cluster filter back to back in the same synchronous step. -/
def highlightTree (clusters : List VisCluster) (treeName : String) : Filters :=
  { pointName := treeName
  , clusterIds :=
      (clusters.filter (fun c => c.leaves.any (fun leaf => leaf.properties.common_name == treeName))).map
        (fun c => c.cluster_id) }

/-- Engine state for the highlight logic of src/unnamed/part_001: the
currently rendered clusters, the highlightedTree selection, and the two
installed layer filters. -/
structure EngState where
  clusters : List VisCluster
  selection : Option String
  filters : Filters
deriving DecidableEq

/-- Events driving the highlight logic: a debounced viewport settle, a
Feature Store mutation (setData reshapes the rendered clusters), and a
click on a summary entry. -/
inductive MapEvent where
  | settle (cs : List VisCluster)
  | mutate (cs : List VisCluster)
  | selectName (k : String)
deriving DecidableEq

/-- One engine step of src/unnamed/part_001 lines 561-592.  settle: the
debounced moveend/zoomend handlers (mounted only while a tree is
highlighted) rerun highlightTree against the new rendered clusters.
mutate: a Feature Store change updates the source data and hence the
rendered clusters, but the highlight effect, whose dependencies are
layersLoaded and highlightedTree only (line 592), does not rerun, so the
installed filters stay as they are.  selectName: handleTreeListClick
toggles the selection and the effect rerun recomputes the filters for the
new name, or resets them to match nothing when the selection was cleared. -/
def engStep (st : EngState) (ev : MapEvent) : EngState :=
  match ev with
  | MapEvent.settle cs =>
      match st.selection with
      | some k => { clusters := cs, selection := some k, filters := highlightTree cs k }
      | none => { st with clusters := cs }
  | MapEvent.mutate cs => { st with clusters := cs }
  | MapEvent.selectName k =>
      match handleTreeListClick k st.selection with
      | some k2 => { st with selection := some k2, filters := highlightTree st.clusters k2 }
      | none => { st with selection := none, filters := emptyFilters }

/-- The two filters are exactly consistent with the rendered clusters for
highlight key k: the point filter matches k and the cluster filter lists
precisely the visible clusters having at least one leaf with common_name
k. -/
def filtersConsistent (st : EngState) (k : String) : Prop :=
  st.filters.pointName = k ∧
  ∀ i : Nat, i ∈ st.filters.clusterIds ↔
    ∃ c, c ∈ st.clusters ∧ c.cluster_id = i ∧ ∃ f, f ∈ c.leaves ∧ f.properties.common_name = k

/-- Membership in the cluster filter computed by highlightTree. -/
theorem mem_highlightTree_clusterIds (cs : List VisCluster) (k : String) (i : Nat) :
    i ∈ (highlightTree cs k).clusterIds ↔
      ∃ c, c ∈ cs ∧ c.cluster_id = i ∧ ∃ f, f ∈ c.leaves ∧ f.properties.common_name = k := by
  unfold highlightTree
  simp only [List.mem_map, List.mem_filter, List.any_eq_true, beq_iff_eq]
  constructor
  · rintro ⟨c, ⟨hc, f, hf, hname⟩, hid⟩
    exact ⟨c, hc, hid, f, hf, hname⟩
  · rintro ⟨c, hc, hid, f, hf, hname⟩
    exact ⟨c, ⟨hc, f, hf, hname⟩, hid⟩

/-- The engine state after selecting Oak while no clusters were rendered. -/
def engSelOak : EngState :=
  engStep { clusters := [], selection := none, filters := emptyFilters } (MapEvent.selectName "Oak")

/-- Claim C5 counterexample: with Oak selected, a Feature Store mutation
that makes cluster 5 (holding an Oak leaf) visible leaves the installed
cluster filter without that cluster: the highlight effect does not rerun on
a store mutation, so after the mutation the cluster filter does not contain
every visible cluster whose leaves include an Oak feature. -/
theorem claim_C5_counterexample :
    (engStep engSelOak (MapEvent.mutate [{ cluster_id := 5, leaves := [oakFeature] }])).selection = some "Oak" ∧
    (∃ c, c ∈ (engStep engSelOak (MapEvent.mutate [{ cluster_id := 5, leaves := [oakFeature] }])).clusters ∧
      c.cluster_id = 5 ∧ ∃ f, f ∈ c.leaves ∧ f.properties.common_name = "Oak") ∧
    ¬ 5 ∈ (engStep engSelOak (MapEvent.mutate [{ cluster_id := 5, leaves := [oakFeature] }])).filters.clusterIds := by
  refine ⟨by decide, ?_, by decide⟩
  exact ⟨{ cluster_id := 5, leaves := [oakFeature] }, by decide, rfl, oakFeature, by decide, rfl⟩

/-- Claim C5 amended: while a group key k is selected, every viewport
settle recomputes both highlight filters together in one synchronous step
from the same rendered clusters, after which the point filter matches
exactly the features with common_name k and the cluster filter lists
exactly the visible clusters with at least one k leaf; a Feature Store
mutation, by contrast, leaves both installed filters untouched. -/
theorem claim_C5_settle_highlight_consistent :
    ∀ (st : EngState) (cs : List VisCluster) (k : String),
      (st.selection = some k → filtersConsistent (engStep st (MapEvent.settle cs)) k) ∧
      (engStep st (MapEvent.mutate cs)).filters = st.filters := by
  intro st cs k
  constructor
  · intro hsel
    unfold engStep
    rw [hsel]
    unfold filtersConsistent
    refine ⟨rfl, ?_⟩
    intro i
    exact mem_highlightTree_clusterIds cs k i
  · rfl

/-- Claim C5 witness: after selecting Oak and settling on a viewport where
cluster 5 contains the oak leaf, both filters are exactly consistent. -/
theorem claim_C5_witness :
    filtersConsistent (engStep engSelOak (MapEvent.settle [{ cluster_id := 5, leaves := [oakFeature] }])) "Oak" :=
  (claim_C5_settle_highlight_consistent engSelOak
    [{ cluster_id := 5, leaves := [oakFeature] }] "Oak").1 (by decide)

/-! Interaction Mediator: double-tap-to-add gesture. -/

/-- A pixel point on the map surface. -/
structure ScreenPoint where
  x : Int
  y : Int
deriving DecidableEq

/-- The remembered last tap (lastTapRef, src/unnamed/part_001 line 185). -/
structure LastTap where
  point : ScreenPoint
  time : Int
deriving DecidableEq

/-- A touch event: its pixel point and its geographic lngLat. -/
structure TouchPress where
  point : ScreenPoint
  lngLat : Int × Int
deriving DecidableEq

/-- isSameLocation (src/unnamed/part_001 lines 362-367): both pixel
distances are at most the 10 pixel threshold. -/
def isSameLocation (point1 point2 : ScreenPoint) : Bool :=
  decide ((point1.x - point2.x).natAbs ≤ 10) && decide ((point1.y - point2.y).natAbs ≤ 10)

/-- handleMapTouch (src/unnamed/part_001 lines 381-396).  Returns the new
remembered last tap and, when a double tap is detected, the lngLat at which
the add workflow opens (handleDoubleTouch sets the new-tree coordinates and
shows the form).  A tap landing on a rendered feature or cluster
(clickedOnFeature) does nothing at all.  On empty map the tap is a double
tap when the elapsed time is strictly between 0 and 200 ms and the pixel
distance is within the threshold; otherwise the tap replaces the
remembered last tap. -/
def handleMapTouch (clickedOnFeature : Bool) (currentTime : Int) (event : TouchPress) (lastTap : LastTap) : LastTap × Option (Int × Int) :=
  if clickedOnFeature then (lastTap, none)
  else
    let tapLength := currentTime - lastTap.time
    let isDoubleTapTime := decide (tapLength < 200) && decide (0 < tapLength)
    let isDoubleTapSpace := isSameLocation event.point lastTap.point
    if isDoubleTapTime && isDoubleTapSpace then (lastTap, some event.lngLat)
    else ({ point := event.point, time := currentTime }, none)

/-- Claim C8 counterexample: a second tap 0 ms after the remembered tap at
the exact same pixel on empty map satisfies the claimed condition (strictly
less than 200 ms earlier, within 10 pixels in both x and y) yet does not
open the add workflow: the code additionally requires the elapsed time to
be strictly positive. -/
theorem claim_C8_counterexample :
    ((1000 : Int) - 1000 < 200 ∧ ((0 : Int) - 0).natAbs ≤ 10 ∧ ((0 : Int) - 0).natAbs ≤ 10) ∧
    (handleMapTouch false 1000 { point := { x := 0, y := 0 }, lngLat := (7, 8) }
      { point := { x := 0, y := 0 }, time := 1000 }).2 = none := by
  decide

/-- Claim C8 amended: a tap on a rendered feature or cluster never counts
toward add-gesture detection (nothing changes and nothing opens).  A tap on
empty map opens the add workflow at the tap location exactly when the
remembered last tap occurred strictly less than 200 ms and strictly more
than 0 ms earlier and within 10 pixels in both x and y; otherwise nothing
opens and the tap replaces the remembered last tap.  When the gesture does
open the workflow the remembered last tap is left as it was. -/
theorem claim_C8_double_tap :
    ∀ (currentTime : Int) (event : TouchPress) (lastTap : LastTap),
      handleMapTouch true currentTime event lastTap = (lastTap, none) ∧
      ((handleMapTouch false currentTime event lastTap).2 = some event.lngLat ↔
        (0 < currentTime - lastTap.time ∧ currentTime - lastTap.time < 200 ∧
         (event.point.x - lastTap.point.x).natAbs ≤ 10 ∧
         (event.point.y - lastTap.point.y).natAbs ≤ 10)) ∧
      ((handleMapTouch false currentTime event lastTap).2 = none →
        (handleMapTouch false currentTime event lastTap).1 = { point := event.point, time := currentTime }) ∧
      ((handleMapTouch false currentTime event lastTap).2 ≠ none →
        (handleMapTouch false currentTime event lastTap).1 = lastTap) := by
  intro currentTime event lastTap
  have hmain : handleMapTouch false currentTime event lastTap =
      (if (decide (currentTime - lastTap.time < 200) && decide (0 < currentTime - lastTap.time)) &&
          (decide ((event.point.x - lastTap.point.x).natAbs ≤ 10) &&
           decide ((event.point.y - lastTap.point.y).natAbs ≤ 10))
       then (lastTap, some event.lngLat)
       else ({ point := event.point, time := currentTime }, none)) := rfl
  refine ⟨rfl, ?_, ?_, ?_⟩ <;> rw [hmain] <;> clear hmain
  · split
    case isTrue h =>
      simp only [Bool.and_eq_true, decide_eq_true_eq] at h
      exact ⟨fun _ => ⟨h.1.2, h.1.1, h.2.1, h.2.2⟩, fun _ => rfl⟩
    case isFalse h =>
      simp only [Bool.and_eq_true, decide_eq_true_eq] at h
      constructor
      · intro habs
        exact absurd habs (by simp)
      · intro ⟨h1, h2, h3, h4⟩
        exact absurd ⟨⟨h2, h1⟩, h3, h4⟩ h
  · split
    case isTrue h =>
      intro habs
      exact absurd habs (by simp)
    case isFalse h =>
      intro _
      rfl
  · split
    case isTrue h =>
      intro _
      rfl
    case isFalse h =>
      intro habs
      exact absurd rfl habs

/-- Claim C8 witness: a second tap 150 ms later and 5 pixels away on empty
map opens the add workflow at the tap location. -/
theorem claim_C8_witness :
    (handleMapTouch false 1150 { point := { x := 3, y := 4 }, lngLat := (7, 8) }
      { point := { x := 0, y := 0 }, time := 1000 }).2 = some (7, 8) :=
  ((claim_C8_double_tap 1150 { point := { x := 3, y := 4 }, lngLat := (7, 8) }
      { point := { x := 0, y := 0 }, time := 1000 }).2.1).mpr (by decide)

/-! Viewport Tracker: debounced settle. -/

/-- A raw viewport move/zoom event: its arrival time in ms and the
viewport it leaves the map in (abstracted to an identifier). -/
structure ViewEvent where
  time : Nat
  viewport : Nat
deriving DecidableEq

/-- A burst: every event follows its predecessor after a gap strictly
below the debounce delay. -/
def withinBurst (delay : Nat) : List ViewEvent → Bool
  | [] => true
  | [_] => true
  | e1 :: e2 :: rest => decide (e2.time - e1.time < delay) && withinBurst delay (e2 :: rest)

/-- Modelled from the lodash trailing-edge debounce wrapped around
updateVisibleTrees (debouncedUpdateVisibleTrees, src/unnamed/part_001 lines
545-551): each raw event restarts the delay timer and the callback runs
once the delay elapses with no newer event, querying the map at that
moment, i.e. acting on the viewport of the latest event.  The result lists
the events whose restarted timer actually fired; earlier viewports are
never queued or replayed. -/
def debounceFires (delay : Nat) : List ViewEvent → List ViewEvent
  | [] => []
  | [e] => [e]
  | e1 :: e2 :: rest =>
      if delay ≤ e2.time - e1.time then e1 :: debounceFires delay (e2 :: rest)
      else debounceFires delay (e2 :: rest)

/-- Within a burst the only timer to fire is the one restarted by the last
event. -/
theorem debounceFires_burst (delay : Nat) :
    ∀ (evs : List ViewEvent) (h : ¬ evs = []), withinBurst delay evs = true →
      debounceFires delay evs = [evs.getLast h]
  | [], h, _ => absurd rfl h
  | [_], _, _ => rfl
  | e1 :: e2 :: rest, _, hb => by
      have hb2 : (decide (e2.time - e1.time < delay) && withinBurst delay (e2 :: rest)) = true := hb
      rw [Bool.and_eq_true] at hb2
      have hgap : e2.time - e1.time < delay := of_decide_eq_true hb2.1
      have ih := debounceFires_burst delay (e2 :: rest) (by simp) hb2.2
      unfold debounceFires
      rw [if_neg (by omega)]
      rw [ih]
      exact congrArg (fun z => [z]) (List.getLast_cons (List.cons_ne_nil e2 rest)).symm

/-- Claim C9: for every non-empty burst of viewport events in which each
event follows the previous one within the 300 ms debounce window, exactly
one settled recompute fires after the burst ends, namely the one for the
final event, acting on the final viewport; no intermediate event fires. -/
theorem claim_C9_debounce_coalescing :
    ∀ (evs : List ViewEvent) (h : ¬ evs = []), withinBurst 300 evs = true →
      debounceFires 300 evs = [evs.getLast h] := by
  intro evs h hb
  exact debounceFires_burst 300 evs h hb

/-- Claim C9 witness: a burst of three events with gaps of 100 ms and
150 ms produces exactly one fire, carrying the last viewport. -/
theorem claim_C9_witness :
    debounceFires 300 [{ time := 0, viewport := 10 }, { time := 100, viewport := 20 }, { time := 250, viewport := 30 }] =
      [{ time := 250, viewport := 30 }] :=
  claim_C9_debounce_coalescing
    [{ time := 0, viewport := 10 }, { time := 100, viewport := 20 }, { time := 250, viewport := 30 }]
    (by decide) (by decide)

/-! Visibility Aggregator. -/

/-- A rendered container returned by queryRenderedFeatures and pushed into
the grouping object by updateVisibleTrees: either an unclustered point
feature or a cluster identified by its cluster_id. -/
inductive Item where
  | point (f : Feature)
  | cluster (cluster_id : Nat)
deriving DecidableEq

/-- Worker for the location_id dedup with the set of already seen ids. -/
def dedupGo (seen : List String) : List Feature → List Feature
  | [] => []
  | f :: fs =>
      if f.properties.location_id ∈ seen then dedupGo seen fs
      else f :: dedupGo (f.properties.location_id :: seen) fs

/-- The dedup step of updateVisibleTrees (src/unnamed/part_001 lines
528-530): Array.from(new Set(ids)).map(id => trees.find(...)) keeps, for
each distinct location_id in first-occurrence order, the first queried
feature carrying it. -/
def dedupByLocationId (trees : List Feature) : List Feature :=
  dedupGo [] trees

/-- Cluster expansion inside the grouping reduce (line 534): a cluster is
expanded to its getClusterLeaves result, a point stands for itself. -/
def expandItem (leavesOf : Nat → List Feature) : Item → List Feature
  | Item.point f => [f]
  | Item.cluster cid => leavesOf cid

/-- One push into the accumulator object, groups[common_name].push(item):
a missing key is created at the end (JavaScript objects keep string keys in
insertion order), an existing key gets the item appended. -/
def pushGroup : List (String × List Item) → String → Item → List (String × List Item)
  | [], key, item => [(key, [item])]
  | (k, items) :: rest, key, item =>
      if k = key then (k, items ++ [item]) :: rest
      else (k, items) :: pushGroup rest key item

/-- The grouping reduce of updateVisibleTrees (lines 532-540): walk the
deduplicated points followed by the queried clusters in arrival order;
expand each container to its features and push the container once per
feature under the feature common_name. -/
def groupVisible (pointQuery : List Feature) (clusterQuery : List Nat) (leavesOf : Nat → List Feature) : List (String × List Item) :=
  let trees := dedupByLocationId pointQuery
  let containers := trees.map Item.point ++ clusterQuery.map Item.cluster
  containers.foldl
    (fun groups it =>
      (expandItem leavesOf it).foldl
        (fun gs leaf => pushGroup gs leaf.properties.common_name it) groups)
    []

/-- Stable insertion of an entry in front of the first strictly smaller
entry: together with sortByCountDesc this models the ECMAScript stable
Array.prototype.sort with comparator (a, b) => b[1].length - a[1].length
(line 542), which orders by member count descending and keeps equal-count
entries in their previous relative order. -/
def countInsert (entry : String × List Item) : List (String × List Item) → List (String × List Item)
  | [] => [entry]
  | e :: es =>
      if e.2.length ≤ entry.2.length then entry :: e :: es
      else e :: countInsert entry es

/-- Stable sort by member count descending (line 542). -/
def sortByCountDesc : List (String × List Item) → List (String × List Item)
  | [] => []
  | e :: es => countInsert e (sortByCountDesc es)

/-- updateVisibleTrees (src/unnamed/part_001 lines 526-543): dedup the
standalone point query by location_id, append the cluster query, group the
expanded leaves by common_name, and sort the entries by member count
descending with stable ties. -/
def updateVisibleTrees (pointQuery : List Feature) (clusterQuery : List Nat) (leavesOf : Nat → List Feature) : List (String × List Item) :=
  sortByCountDesc (groupVisible pointQuery clusterQuery leavesOf)

/-- Total number of bucket memberships in a summary. -/
def sumSizes (groups : List (String × List Item)) : Nat :=
  (groups.map (fun g => g.2.length)).sum

/-- A push adds exactly one membership. -/
theorem sumSizes_pushGroup :
    ∀ (groups : List (String × List Item)) (key : String) (item : Item),
      sumSizes (pushGroup groups key item) = sumSizes groups + 1
  | [], key, item => rfl
  | (k, items) :: rest, key, item => by
      unfold pushGroup
      by_cases h : k = key
      · rw [if_pos h]
        simp only [sumSizes, List.map_cons, List.sum_cons, List.length_append,
          List.length_singleton]
        omega
      · rw [if_neg h]
        have ih := sumSizes_pushGroup rest key item
        simp only [sumSizes, List.map_cons, List.sum_cons] at ih ⊢
        omega

/-- Pushing one container per leaf adds one membership per leaf. -/
theorem sumSizes_pushLeaves (it : Item) :
    ∀ (fs : List Feature) (groups : List (String × List Item)),
      sumSizes (fs.foldl (fun gs leaf => pushGroup gs leaf.properties.common_name it) groups) =
        sumSizes groups + fs.length
  | [], groups => by simp
  | f :: fs, groups => by
      simp only [List.foldl_cons, List.length_cons]
      rw [sumSizes_pushLeaves it fs (pushGroup groups f.properties.common_name it)]
      rw [sumSizes_pushGroup]
      omega

/-- The grouping fold adds one membership per expanded feature. -/
theorem sumSizes_groupFold (leavesOf : Nat → List Feature) :
    ∀ (containers : List Item) (groups : List (String × List Item)),
      sumSizes (containers.foldl
        (fun gs it => (expandItem leavesOf it).foldl
          (fun gs2 leaf => pushGroup gs2 leaf.properties.common_name it) gs) groups) =
        sumSizes groups + (containers.map (fun it => (expandItem leavesOf it).length)).sum
  | [], groups => by simp
  | it :: rest, groups => by
      simp only [List.foldl_cons, List.map_cons, List.sum_cons]
      rw [sumSizes_groupFold leavesOf rest _]
      rw [sumSizes_pushLeaves]
      omega

/-- countInsert only repositions the inserted entry. -/
theorem countInsert_perm (entry : String × List Item) :
    ∀ (l : List (String × List Item)), List.Perm (countInsert entry l) (entry :: l)
  | [] => List.Perm.refl _
  | e :: es => by
      unfold countInsert
      by_cases h : e.2.length ≤ entry.2.length
      · rw [if_pos h]
      · rw [if_neg h]
        exact ((countInsert_perm entry es).cons e).trans (List.Perm.swap entry e es)

/-- The stable sort is a permutation. -/
theorem sortByCountDesc_perm :
    ∀ (l : List (String × List Item)), List.Perm (sortByCountDesc l) l
  | [] => List.Perm.refl _
  | e :: es => (countInsert_perm e (sortByCountDesc es)).trans ((sortByCountDesc_perm es).cons e)

/-- Permuting a summary keeps its total membership count. -/
theorem sumSizes_perm {l1 l2 : List (String × List Item)} (h : List.Perm l1 l2) :
    sumSizes l1 = sumSizes l2 := by
  unfold sumSizes
  exact (h.map (fun g => g.2.length)).sum_eq

/-- Inserting into a descending-sorted list keeps it descending-sorted. -/
theorem pairwise_countInsert (entry : String × List Item) :
    ∀ (l : List (String × List Item)),
      List.Pairwise (fun a b => b.2.length ≤ a.2.length) l →
      List.Pairwise (fun a b => b.2.length ≤ a.2.length) (countInsert entry l)
  | [], _ => List.pairwise_singleton _ _
  | e :: es, hp => by
      unfold countInsert
      rw [List.pairwise_cons] at hp
      by_cases h : e.2.length ≤ entry.2.length
      · rw [if_pos h]
        refine List.pairwise_cons.mpr ⟨?_, List.pairwise_cons.mpr hp⟩
        intro z hz
        rcases List.mem_cons.mp hz with rfl | hz2
        · exact h
        · exact le_trans (hp.1 z hz2) h
      · rw [if_neg h]
        refine List.pairwise_cons.mpr ⟨?_, pairwise_countInsert entry es hp.2⟩
        intro z hz
        rcases List.mem_cons.mp ((countInsert_perm entry es).mem_iff.mp hz) with rfl | hz2
        · omega
        · exact hp.1 z hz2

/-- The sorted summary is descending in member count. -/
theorem sortByCountDesc_pairwise :
    ∀ (l : List (String × List Item)),
      List.Pairwise (fun a b => b.2.length ≤ a.2.length) (sortByCountDesc l)
  | [] => List.Pairwise.nil
  | e :: es => pairwise_countInsert e (sortByCountDesc es) (sortByCountDesc_pairwise es)

/-- Filtering to one fixed count commutes with countInsert: the inserted
entry, when it has that count, lands in front of the equally counted ones
that were inserted after it. -/
theorem filter_countInsert (c : Nat) (entry : String × List Item) :
    ∀ (l : List (String × List Item)),
      (countInsert entry l).filter (fun g => g.2.length == c) =
        if entry.2.length = c then entry :: l.filter (fun g => g.2.length == c)
        else l.filter (fun g => g.2.length == c)
  | [] => by
      by_cases h : entry.2.length = c <;> simp [countInsert, List.filter_cons, h]
  | e :: es => by
      unfold countInsert
      by_cases hle : e.2.length ≤ entry.2.length
      · rw [if_pos hle]
        by_cases h : entry.2.length = c <;> simp [List.filter_cons, h]
      · rw [if_neg hle]
        have ih := filter_countInsert c entry es
        by_cases h : entry.2.length = c
        · have hne : ¬ e.2.length = c := by omega
          simp [List.filter_cons, ih, h, hne]
        · simp [List.filter_cons, ih, h]

/-- Filtering to one fixed count sees the sorted summary exactly as the
grouped (arrival-ordered) summary: equal counts never swap. -/
theorem filter_sortByCountDesc (c : Nat) :
    ∀ (l : List (String × List Item)),
      (sortByCountDesc l).filter (fun g => g.2.length == c) = l.filter (fun g => g.2.length == c)
  | [] => rfl
  | e :: es => by
      unfold sortByCountDesc
      rw [filter_countInsert c e (sortByCountDesc es)]
      rw [filter_sortByCountDesc c es]
      by_cases h : e.2.length = c <;> simp [List.filter_cons, h]

/-- The dedup keeps a sublist of the queried points. -/
theorem dedupGo_sublist :
    ∀ (seen : List String) (l : List Feature), List.Sublist (dedupGo seen l) l
  | _, [] => List.Sublist.refl _
  | seen, f :: fs => by
      unfold dedupGo
      by_cases h : f.properties.location_id ∈ seen
      · rw [if_pos h]
        exact List.Sublist.cons f (dedupGo_sublist seen fs)
      · rw [if_neg h]
        exact List.Sublist.cons₂ f (dedupGo_sublist _ fs)

/-- The dedup output avoids the seen ids and repeats no location_id. -/
theorem dedupGo_distinct :
    ∀ (seen : List String) (l : List Feature),
      (∀ f, f ∈ dedupGo seen l → ¬ f.properties.location_id ∈ seen) ∧
      List.Pairwise (fun f g => ¬ f.properties.location_id = g.properties.location_id) (dedupGo seen l)
  | _, [] => ⟨fun f hf => absurd hf (List.not_mem_nil f), List.Pairwise.nil⟩
  | seen, f :: fs => by
      unfold dedupGo
      by_cases h : f.properties.location_id ∈ seen
      · rw [if_pos h]
        exact dedupGo_distinct seen fs
      · rw [if_neg h]
        have ih := dedupGo_distinct (f.properties.location_id :: seen) fs
        constructor
        · intro g hg hseen
          rcases List.mem_cons.mp hg with rfl | hg2
          · exact h hseen
          · exact ih.1 g hg2 (List.mem_cons_of_mem _ hseen)
        · refine List.pairwise_cons.mpr ⟨?_, ih.2⟩
          intro g hg heq
          refine ih.1 g hg ?_
          rw [← heq]
          exact List.mem_cons_self _ _

/-- Claim C6 counterexample: the oak feature is visible both as a
standalone point and as the sole leaf of the visible cluster 7; the
summary gives the Oak group two memberships although only one distinct
feature id is visible, so the aggregator does count the same feature id
twice when it arrives through both overlapping queries: dedup is applied
to the standalone point query only. -/
theorem claim_C6_counterexample :
    sumSizes (updateVisibleTrees [oakFeature] [7] (fun cid => if cid = 7 then [oakFeature] else [])) = 2 ∧
    (dedupByLocationId ([oakFeature] ++ (fun cid => if cid = 7 then [oakFeature] else []) 7)).length = 1 := by
  exact ⟨rfl, rfl⟩

/-- Claim C6 amended: the aggregator deduplicates the standalone point
query by feature id before bucketing: distinct ids survive exactly once
(pairwise distinct, in first-occurrence order, a sublist of the query),
and with no visible cluster every distinct queried id contributes exactly
one bucket membership to the summary; only a feature arriving again
through a cluster expansion is counted once per appearance. -/
theorem claim_C6_point_query_dedup :
    ∀ (pointQuery : List Feature) (leavesOf : Nat → List Feature),
      sumSizes (updateVisibleTrees pointQuery [] leavesOf) = (dedupByLocationId pointQuery).length ∧
      List.Pairwise (fun f g => ¬ f.properties.location_id = g.properties.location_id) (dedupByLocationId pointQuery) ∧
      List.Sublist (dedupByLocationId pointQuery) pointQuery := by
  intro pq L
  refine ⟨?_, (dedupGo_distinct [] pq).2, dedupGo_sublist [] pq⟩
  unfold updateVisibleTrees
  rw [sumSizes_perm (sortByCountDesc_perm _)]
  unfold groupVisible
  rw [sumSizes_groupFold]
  simp only [List.map_nil, List.append_nil, List.map_map, Function.comp_def]
  have hones : ∀ l : List Feature,
      (l.map (fun f => (expandItem L (Item.point f)).length)).sum = l.length := by
    intro l
    induction l with
    | nil => rfl
    | cons x xs ih =>
        simp only [List.map_cons, List.sum_cons, List.length_cons]
        rw [ih]
        show 1 + xs.length = xs.length + 1
        omega
  have hz : sumSizes ([] : List (String × List Item)) = 0 := rfl
  rw [hz]
  rw [Nat.zero_add]
  exact hones (dedupByLocationId pq)

/-- Claim C7: every visibility summary produced by updateVisibleTrees is
sorted by group member count in descending order, and groups with equal
counts keep the arrival order of the grouping pass over the underlying
query (stable tie-breaking, not lexicographic): filtering the summary to
any fixed count yields exactly the equally counted groups in their grouped
arrival order. -/
theorem claim_C7_summary_sorted_stable :
    ∀ (pointQuery : List Feature) (clusterQuery : List Nat) (leavesOf : Nat → List Feature),
      List.Pairwise (fun a b => b.2.length ≤ a.2.length)
        (updateVisibleTrees pointQuery clusterQuery leavesOf) ∧
      ∀ c : Nat, (updateVisibleTrees pointQuery clusterQuery leavesOf).filter (fun g => g.2.length == c) =
        (groupVisible pointQuery clusterQuery leavesOf).filter (fun g => g.2.length == c) := by
  intro pq cq L
  exact ⟨sortByCountDesc_pairwise _, fun c => filter_sortByCountDesc c _⟩

end Meander
